import Mathlib

/-!
Verification of the scoring/filtering/ranking core of the audiobook/book
explorer dashboards (`main.py` and `bookApp.py`).

Conventions of the shallow embedding:
* Pandas/NumPy float columns are modelled with `ℚ`; a NaN cell is `none` in
  an `Option ℚ` column (NaN is the representation of null/missing data in the
  dataframes, and any arithmetic result that is NaN in float semantics — such
  as `0/0` — is likewise modelled as `none`).
* Integer columns (`votes` / `ratings_count`) are `ℕ`: the loaders coerce
  them with `fillna(0).astype(int)`.
* Each dataframe row is an `Item`; columns not read by the scoring code are
  carried as opaque pass-through fields.
-/

/-- One catalog row after loading/cleaning: `average_rating` is the parsed
rating (NaN ↦ `none`), `ratings_count` the integer vote count; the remaining
fields are pass-through attributes not used by the score formulas. -/
structure Item where
  average_rating : Option ℚ
  ratings_count : ℕ
  price : Option ℚ
  likedPercent : ℚ
  total_minutes : ℕ
  title : String
  genres_list : List String
deriving DecidableEq

/-- Source `bookApp.py` lines 308–316 (Streamlit book variant): the weighted score
column is initialised to NaN; rows with a non-null `average_rating` get
`average_rating` itself when `m_val == 0`, otherwise
`(count/(count+m))*rating + (m/(count+m))*C`. -/
def weighted_score (m C : ℚ) (it : Item) : Option ℚ :=
  match it.average_rating with
  | none => none
  | some r =>
    if m = 0 then some r
    else some (((it.ratings_count : ℚ) / ((it.ratings_count : ℚ) + m)) * r
               + (m / ((it.ratings_count : ℚ) + m)) * C)

/-- Source `main.py` lines 140–155: the weighted score column is initialised to NaN;
rows with a non-null rating get `((votes*R) + (m*C)) / (votes + m)` — which in
float semantics is `0/0 = NaN` when `votes = 0` and `m = 0` — and afterwards
rows with `votes = 0` (and a valid rating) are overwritten with `C` when
`m > 0`. -/
def weighted_score_main (m C : ℚ) (it : Item) : Option ℚ :=
  match it.average_rating with
  | none => none
  | some r =>
    let base : Option ℚ :=
      if (it.ratings_count : ℚ) + m = 0 then none
      else some (((it.ratings_count : ℚ) * r + m * C) / ((it.ratings_count : ℚ) + m))
    if 0 < m ∧ it.ratings_count = 0 then some C else base

/-- C2: `main.py` computes `0/0` (NaN) for a rated item with `votes = 0` and
`m = 0`, and that NaN reaches sorting/display; the book variant returns the raw
rating as the claim demands.  Evaluation at the failing input
`average_rating = 4.5`, `ratings_count = 0`, `m = 0`. -/
theorem C2_main_nan_at_m_zero_votes_zero :
    weighted_score_main 0 4 ⟨some (9/2), 0, none, 0, 0, "b", []⟩ = none ∧
    weighted_score 0 4 ⟨some (9/2), 0, none, 0, 0, "b", []⟩ = some (9/2) := by
  constructor
  · norm_num [weighted_score_main]
  · norm_num [weighted_score]

/-- C3: a rated item with zero votes and any anchor `m > 0` scores exactly the
corpus mean `C`, in both the book variant and `main.py`. -/
theorem C3_zero_votes_score_is_corpus_mean (m C r : ℚ) (it : Item)
    (hm : 0 < m) (hr : it.average_rating = some r) (hv : it.ratings_count = 0) :
    weighted_score m C it = some C ∧ weighted_score_main m C it = some C := by
  constructor
  · simp only [weighted_score, hr, hv]
    have hm' : m ≠ 0 := ne_of_gt hm
    simp [hm', div_self]
  · simp [weighted_score_main, hr, hv, hm]

/-- Witness for C3 at `m = 100`, `C = 4`, `average_rating = 5`, `votes = 0`. -/
theorem C3_witness :
    weighted_score 100 4 ⟨some 5, 0, none, 0, 0, "b", []⟩ = some 4 ∧
    weighted_score_main 100 4 ⟨some 5, 0, none, 0, 0, "b", []⟩ = some 4 :=
  C3_zero_votes_score_is_corpus_mean 100 4 5 ⟨some 5, 0, none, 0, 0, "b", []⟩
    (by norm_num) rfl rfl

/-- Helper: the closed-form convexity bound for `(v*r + m*C)/(v+m)`. -/
theorem weighted_formula_bounds (v m r C : ℚ) (hv : 0 ≤ v) (hm : 0 ≤ m)
    (hd : 0 < v + m) :
    min r C ≤ (v * r + m * C) / (v + m) ∧ (v * r + m * C) / (v + m) ≤ max r C := by
  constructor
  · rw [le_div_iff₀ hd]
    rcases le_total r C with h | h
    · rw [min_eq_left h]; nlinarith
    · rw [min_eq_right h]; nlinarith
  · rw [div_le_iff₀ hd]
    rcases le_total r C with h | h
    · rw [max_eq_right h]; nlinarith
    · rw [max_eq_left h]; nlinarith

/-- C4: for every non-degenerate input (a weighted score is actually produced),
the weighted score lies between the item's rating and the corpus mean, in both
variants. -/
theorem C4_weighted_score_convex (m C r s : ℚ) (it : Item)
    (hm : 0 ≤ m) (hr : it.average_rating = some r) :
    (weighted_score m C it = some s → min r C ≤ s ∧ s ≤ max r C) ∧
    (weighted_score_main m C it = some s → min r C ≤ s ∧ s ≤ max r C) := by
  have hv : (0 : ℚ) ≤ (it.ratings_count : ℚ) := Nat.cast_nonneg _
  constructor
  · intro hs
    simp only [weighted_score, hr] at hs
    by_cases hm0 : m = 0
    · simp only [hm0, if_true, Option.some.injEq] at hs
      subst hs
      exact ⟨min_le_left _ _, le_max_left _ _⟩
    · have hmpos : 0 < m := lt_of_le_of_ne hm (Ne.symm hm0)
      have hd : 0 < (it.ratings_count : ℚ) + m := by linarith
      simp only [hm0, if_false, Option.some.injEq] at hs
      have hform : ((it.ratings_count : ℚ) / ((it.ratings_count : ℚ) + m)) * r
          + (m / ((it.ratings_count : ℚ) + m)) * C
          = ((it.ratings_count : ℚ) * r + m * C) / ((it.ratings_count : ℚ) + m) := by
        field_simp
      rw [hform] at hs
      subst hs
      exact weighted_formula_bounds _ _ _ _ hv hm hd
  · intro hs
    simp only [weighted_score_main, hr] at hs
    by_cases hz : 0 < m ∧ it.ratings_count = 0
    · rw [if_pos hz] at hs
      obtain rfl : C = s := Option.some.inj hs
      exact ⟨min_le_right _ _, le_max_right _ _⟩
    · rw [if_neg hz] at hs
      by_cases hd0 : (it.ratings_count : ℚ) + m = 0
      · simp [hd0] at hs
      · have hd : 0 < (it.ratings_count : ℚ) + m :=
          lt_of_le_of_ne (by linarith) (Ne.symm hd0)
        simp only [hd0, if_false, Option.some.injEq] at hs
        subst hs
        exact weighted_formula_bounds _ _ _ _ hv hm hd

/-- Witness for C4 at `m = 100`, `C = 4`, item with rating `5` and `1` vote:
the score `(1*5 + 100*4)/101 = 405/101` lies within `[4, 5]`. -/
theorem C4_witness :
    min (5 : ℚ) 4 ≤ 405 / 101 ∧ (405 : ℚ) / 101 ≤ max 5 4 :=
  (C4_weighted_score_convex 100 4 5 (405 / 101) ⟨some 5, 1, none, 0, 0, "b", []⟩
    (by norm_num) rfl).2 (by norm_num [weighted_score_main])

/-!
### Ranking: `sort_values` with `na_position`

`pandas.sort_values` orders the rows whose sort key is non-NaN by the key
(ascending or descending) and places the NaN-keyed rows as a block before or
after them according to `na_position`.  The comparison sort used on the
non-NaN block is modelled by an insertion sort (the claims only concern the
position of the NaN block, not tie order).
-/

/-- Insert an element into a sorted list (ordering given by `le`). -/
def insertSorted (le : Item → Item → Bool) (x : Item) : List Item → List Item
  | [] => [x]
  | y :: ys => if le x y then x :: y :: ys else y :: insertSorted le x ys

/-- Insertion sort over items. -/
def insertionSort (le : Item → Item → Bool) : List Item → List Item
  | [] => []
  | x :: xs => insertSorted le x (insertionSort le xs)

theorem mem_insertSorted (le : Item → Item → Bool) (x a : Item) (l : List Item) :
    a ∈ insertSorted le x l ↔ a = x ∨ a ∈ l := by
  induction l with
  | nil => simp [insertSorted]
  | cons y ys ih =>
    simp only [insertSorted]
    by_cases h : le x y = true
    · simp [h]
    · rw [if_neg h]
      simp only [List.mem_cons, ih]
      tauto

theorem mem_insertionSort (le : Item → Item → Bool) (a : Item) (l : List Item) :
    a ∈ insertionSort le l ↔ a ∈ l := by
  induction l with
  | nil => simp [insertionSort]
  | cons x xs ih => simp [insertionSort, mem_insertSorted, ih]

/-- Where `sort_values` places the NaN block. -/
inductive NaPos where
  | nfirst : NaPos
  | nlast : NaPos
deriving DecidableEq

/-- Model of `DataFrame.sort_values(by=key, ascending=asc, na_position=na)` on
a numeric column: non-NaN rows are comparison-sorted (descending reverses the
comparator), and the NaN rows form a block before or after them. -/
def sortByKey (key : Item → Option ℚ) (asc : Bool) (na : NaPos)
    (items : List Item) : List Item :=
  let nonNull := items.filter (fun it => (key it).isSome)
  let nulls := items.filter (fun it => (key it).isNone)
  let le : Item → Item → Bool := fun a b =>
    if asc then decide ((key a).getD 0 ≤ (key b).getD 0)
    else decide ((key b).getD 0 ≤ (key a).getD 0)
  match na with
  | .nfirst => nulls ++ insertionSort le nonNull
  | .nlast => insertionSort le nonNull ++ nulls

/-- Source `bookApp.py` lines 363–368 (Streamlit book variant): `na_position` defaults
to `'first'` with ascending order and is switched to `'last'` for the
descending sort methods. -/
def bookApp_na_position (asc : Bool) : NaPos :=
  if asc then .nfirst else .nlast

/-- The Streamlit book variant's sort of a numeric column. -/
def bookApp_sort (key : Item → Option ℚ) (asc : Bool) (items : List Item) :
    List Item :=
  sortByKey key asc (bookApp_na_position asc) items

/-- Source `bookApp.py` line 948 (first Flask variant):
`na_position = 'last' if sort_asc else 'first'`. -/
def flask_na_position (asc : Bool) : NaPos :=
  if asc then .nlast else .nfirst

/-- The first Flask variant's sort of a numeric column. -/
def flask_sort (key : Item → Option ℚ) (asc : Bool) (items : List Item) :
    List Item :=
  sortByKey key asc (flask_na_position asc) items

/-- Every null-keyed row comes after every non-null-keyed row: once a null key
appears, all later keys are null. -/
def nullsAtEnd (key : Item → Option ℚ) (l : List Item) : Prop :=
  ∀ i j : Fin l.length, (i : ℕ) < (j : ℕ) →
    key (l.get i) = none → key (l.get j) = none

/-- Every null-keyed row comes before every non-null-keyed row. -/
def nullsAtStart (key : Item → Option ℚ) (l : List Item) : Prop :=
  ∀ i j : Fin l.length, (i : ℕ) < (j : ℕ) →
    key (l.get j) = none → key (l.get i) = none

theorem nullsAtEnd_append (key : Item → Option ℚ) (A B : List Item)
    (hA : ∀ x ∈ A, (key x).isSome) (hB : ∀ x ∈ B, key x = none) :
    nullsAtEnd key (A ++ B) := by
  intro i j hij hi
  have hlen : (A ++ B).length = A.length + B.length := List.length_append A B
  by_cases hiA : (i : ℕ) < A.length
  · exfalso
    have hgi : (A ++ B).get i = A.get ⟨(i : ℕ), hiA⟩ := by
      simp only [List.get_eq_getElem]
      exact List.getElem_append_left hiA
    rw [hgi] at hi
    have hsome := hA _ (List.get_mem A (i : ℕ) hiA)
    rw [hi] at hsome
    simp at hsome
  · have hjA : A.length ≤ (j : ℕ) := le_trans (Nat.le_of_not_lt hiA) (Nat.le_of_lt hij)
    have hjlt : (j : ℕ) < A.length + B.length := by
      simpa [List.length_append] using j.isLt
    have hjB : (j : ℕ) - A.length < B.length := by omega
    have hgj : (A ++ B).get j = B.get ⟨(j : ℕ) - A.length, hjB⟩ := by
      simp only [List.get_eq_getElem]
      exact List.getElem_append_right hjA
    rw [hgj]
    exact hB _ (List.get_mem B ((j : ℕ) - A.length) hjB)

theorem nullsAtStart_append (key : Item → Option ℚ) (A B : List Item)
    (hA : ∀ x ∈ A, key x = none) (hB : ∀ x ∈ B, (key x).isSome) :
    nullsAtStart key (A ++ B) := by
  intro i j hij hj
  by_cases hiA : (i : ℕ) < A.length
  · have hgi : (A ++ B).get i = A.get ⟨(i : ℕ), hiA⟩ := by
      simp only [List.get_eq_getElem]
      exact List.getElem_append_left hiA
    rw [hgi]
    exact hA _ (List.get_mem A (i : ℕ) hiA)
  · exfalso
    have hjA : A.length ≤ (j : ℕ) := le_trans (Nat.le_of_not_lt hiA) (Nat.le_of_lt hij)
    have hjlt : (j : ℕ) < A.length + B.length := by
      simpa [List.length_append] using j.isLt
    have hjB : (j : ℕ) - A.length < B.length := by omega
    have hgj : (A ++ B).get j = B.get ⟨(j : ℕ) - A.length, hjB⟩ := by
      simp only [List.get_eq_getElem]
      exact List.getElem_append_right hjA
    rw [hgj] at hj
    have hsome := hB _ (List.get_mem B ((j : ℕ) - A.length) hjB)
    rw [hj] at hsome
    simp at hsome

theorem sortByKey_nlast_nullsAtEnd (key : Item → Option ℚ) (asc : Bool)
    (items : List Item) : nullsAtEnd key (sortByKey key asc NaPos.nlast items) := by
  apply nullsAtEnd_append
  · intro x hx
    rw [mem_insertionSort] at hx
    exact (List.mem_filter.mp hx).2
  · intro x hx
    have := (List.mem_filter.mp hx).2
    simpa [Option.isNone_iff_eq_none] using this

theorem sortByKey_nfirst_nullsAtStart (key : Item → Option ℚ) (asc : Bool)
    (items : List Item) : nullsAtStart key (sortByKey key asc NaPos.nfirst items) := by
  apply nullsAtStart_append
  · intro x hx
    have := (List.mem_filter.mp hx).2
    simpa [Option.isNone_iff_eq_none] using this
  · intro x hx
    rw [mem_insertionSort] at hx
    exact (List.mem_filter.mp hx).2

/-- C1 (amended): in the Streamlit book variant, every sortable column places
null keys after all non-null keys when the primary order is descending and
before them when it is ascending; but the first Flask variant does the
opposite (nulls first when descending, last when ascending), and `main.py`'s
ascending sorts (price/time, pandas default `na_position='last'`) also place
nulls last. -/
theorem C1_null_key_placement (key : Item → Option ℚ) (items : List Item) :
    (nullsAtEnd key (bookApp_sort key false items) ∧
     nullsAtStart key (bookApp_sort key true items)) ∧
    (nullsAtStart key (flask_sort key false items) ∧
     nullsAtEnd key (flask_sort key true items)) ∧
    nullsAtEnd key (sortByKey key true NaPos.nlast items) :=
  ⟨⟨sortByKey_nlast_nullsAtEnd key false items,
    sortByKey_nfirst_nullsAtStart key true items⟩,
   ⟨sortByKey_nfirst_nullsAtStart key false items,
    sortByKey_nlast_nullsAtEnd key true items⟩,
   sortByKey_nlast_nullsAtEnd key true items⟩

/-- Counterexample to C1 as stated: in the first Flask variant
(`bookApp.py` line 948) a descending sort puts the null-keyed item *before*
the non-null-keyed one. -/
theorem C1_counterexample :
    ¬ nullsAtEnd Item.average_rating
        (flask_sort Item.average_rating false
          [⟨some 5, 10, none, 0, 0, "a", []⟩, ⟨none, 0, none, 0, 0, "b", []⟩]) := by
  intro h
  have hsort : flask_sort Item.average_rating false
      [⟨some 5, 10, none, 0, 0, "a", []⟩, ⟨none, 0, none, 0, 0, "b", []⟩]
      = [⟨none, 0, none, 0, 0, "b", []⟩, ⟨some 5, 10, none, 0, 0, "a", []⟩] := rfl
  rw [hsort] at h
  have := h ⟨0, by norm_num⟩ ⟨1, by norm_num⟩ (by norm_num) rfl
  simp [List.get] at this

/-- Witness for C1's amended statement at a concrete key and collection. -/
theorem C1_witness :
    nullsAtEnd Item.average_rating
      (bookApp_sort Item.average_rating false
        [⟨none, 0, none, 0, 0, "b", []⟩, ⟨some 5, 10, none, 0, 0, "a", []⟩]) :=
  (C1_null_key_placement Item.average_rating
    [⟨none, 0, none, 0, 0, "b", []⟩, ⟨some 5, 10, none, 0, 0, "a", []⟩]).1.1

/-!
### Power score, threshold filter, per-item dependence, Bayesian rating
-/

/-- Source `bookApp.py` lines 318–328: the custom score column is initialised to
`0.0`; if the exponent slider `p` is `0`, rows with a rating get the rating
itself; otherwise rows with a rating and a positive vote count get
`average_rating * ratings_count ** p` (real-valued exponentiation — `p` is a
float slider in `[0, 2]` with step `0.05`, modelled as `ℚ`); remaining rows
keep `0`. -/
noncomputable def rating_votes_power_score (p : ℚ) (it : Item) : ℝ :=
  match it.average_rating with
  | none => 0
  | some r =>
    if p = 0 then (r : ℝ)
    else if 0 < it.ratings_count then
      (r : ℝ) * (it.ratings_count : ℝ) ^ (p : ℝ)
    else 0

/-- C5: the power score is `0` for unrated items, the raw rating when `p = 0`,
`0` for rated items with zero votes and `p > 0`, and
`rating * count ** p` otherwise. -/
theorem C5_power_score_cases (p r : ℚ) (it : Item) :
    (it.average_rating = none → rating_votes_power_score p it = 0) ∧
    (p = 0 → it.average_rating = some r →
      rating_votes_power_score p it = (r : ℝ)) ∧
    (0 < p → it.ratings_count = 0 → it.average_rating = some r →
      rating_votes_power_score p it = 0) ∧
    (0 < p → 0 < it.ratings_count → it.average_rating = some r →
      rating_votes_power_score p it
        = (r : ℝ) * (it.ratings_count : ℝ) ^ (p : ℝ)) := by
  refine ⟨?_, ?_, ?_, ?_⟩
  · intro h
    simp [rating_votes_power_score, h]
  · intro hp h
    simp [rating_votes_power_score, h, hp]
  · intro hp hn h
    have hp0 : p ≠ 0 := ne_of_gt hp
    simp [rating_votes_power_score, h, hp0, hn]
  · intro hp hn h
    have hp0 : p ≠ 0 := ne_of_gt hp
    simp [rating_votes_power_score, h, hp0, hn]

/-- Witness for C5 at `p = 1`, rating `4`, `3` votes. -/
theorem C5_witness :
    rating_votes_power_score 1 ⟨some 4, 3, none, 0, 0, "b", []⟩
      = ((4 : ℚ) : ℝ) * ((3 : ℕ) : ℝ) ^ (((1 : ℚ)) : ℝ) :=
  (C5_power_score_cases 1 4 ⟨some 4, 3, none, 0, 0, "b", []⟩).2.2.2
    (by norm_num) (by norm_num) rfl

/-- C6: for a fixed present rating `r ≥ 0` and fixed exponent `p ≥ 0`, the
power score is monotonically non-decreasing in the vote count. -/
theorem C6_power_score_monotone (p r : ℚ) (it₁ it₂ : Item)
    (hp : 0 ≤ p) (hr : 0 ≤ r)
    (h₁ : it₁.average_rating = some r) (h₂ : it₂.average_rating = some r)
    (hn : it₁.ratings_count ≤ it₂.ratings_count) :
    rating_votes_power_score p it₁ ≤ rating_votes_power_score p it₂ := by
  have hrR : (0 : ℝ) ≤ (r : ℝ) := by exact_mod_cast hr
  simp only [rating_votes_power_score, h₁, h₂]
  by_cases hp0 : p = 0
  · simp [hp0]
  · have hpR : (0 : ℝ) ≤ ((p : ℚ) : ℝ) := by exact_mod_cast hp
    rw [if_neg hp0, if_neg hp0]
    by_cases hn1 : 0 < it₁.ratings_count
    · have hn2 : 0 < it₂.ratings_count := lt_of_lt_of_le hn1 hn
      rw [if_pos hn1, if_pos hn2]
      refine mul_le_mul_of_nonneg_left ?_ hrR
      exact Real.rpow_le_rpow (by positivity) (by exact_mod_cast hn) hpR
    · rw [if_neg hn1]
      by_cases hn2 : 0 < it₂.ratings_count
      · rw [if_pos hn2]
        exact mul_nonneg hrR (Real.rpow_nonneg (by positivity) _)
      · rw [if_neg hn2]

/-- Witness for C6 at `p = 1`, rating `4`, vote counts `2 ≤ 5`. -/
theorem C6_witness :
    rating_votes_power_score 1 ⟨some 4, 2, none, 0, 0, "b", []⟩
      ≤ rating_votes_power_score 1 ⟨some 4, 5, none, 0, 0, "b", []⟩ :=
  C6_power_score_monotone 1 4 ⟨some 4, 2, none, 0, 0, "b", []⟩
    ⟨some 4, 5, none, 0, 0, "b", []⟩ (by norm_num) (by norm_num) rfl rfl
    (by norm_num)

/-- Source `main.py` lines 274–277 (and `bookApp.py` lines 338–339): the engagement
mask keeps a row iff `rating.fillna(0) >= min_rating` and
`votes >= min_votes`. -/
def passes_thresholds (minRating : ℚ) (minVotes : ℕ) (it : Item) : Bool :=
  decide (minRating ≤ it.average_rating.getD 0) && decide (minVotes ≤ it.ratings_count)

/-- Applying the engagement mask to the collection. -/
def filter_thresholds (minRating : ℚ) (minVotes : ℕ) (items : List Item) :
    List Item :=
  items.filter (passes_thresholds minRating minVotes)

/-- C7: the filter is the conjunction of per-attribute predicates — an item
survives iff its rating (null as 0) meets `min_rating` AND its vote count
meets `min_votes`; on the scenario items
`{r=4.5, v=1000}`, `{r=5.0, v=1}`, `{rating=null, v=0}` with
`min_rating=4.0`, `min_votes=50`, exactly the first survives. -/
theorem C7_filter_conjunction (minRating : ℚ) (minVotes : ℕ) (it : Item)
    (items : List Item) :
    (it ∈ filter_thresholds minRating minVotes items ↔
      it ∈ items ∧ minRating ≤ it.average_rating.getD 0
        ∧ minVotes ≤ it.ratings_count) ∧
    filter_thresholds 4 50
      [⟨some (9/2), 1000, none, 0, 0, "item1", []⟩,
       ⟨some 5, 1, none, 0, 0, "item2", []⟩,
       ⟨none, 0, none, 0, 0, "item3", []⟩]
      = [⟨some (9/2), 1000, none, 0, 0, "item1", []⟩] := by
  constructor
  · rw [filter_thresholds, List.mem_filter]
    simp [passes_thresholds, and_assoc]
  · norm_num [filter_thresholds, List.filter_cons, passes_thresholds]

/-- Witness for C7: membership of the surviving scenario item. -/
theorem C7_witness :
    ⟨some (9/2), 1000, none, 0, 0, "item1", []⟩ ∈
      filter_thresholds 4 50
        [⟨some (9/2), 1000, none, 0, 0, "item1", []⟩,
         ⟨some 5, 1, none, 0, 0, "item2", []⟩,
         ⟨none, 0, none, 0, 0, "item3", []⟩] :=
  ((C7_filter_conjunction 4 50 _ _).1).mpr
    ⟨by norm_num, by norm_num, by norm_num⟩

/-- One scoring pass: the derived score columns are computed row by row from
the row's own fields and the pass-wide constants `m`, `C`, `p`. -/
noncomputable def score_pass (m C p : ℚ) (items : List Item) :
    List (Option ℚ × ℝ) :=
  items.map (fun it => (weighted_score m C it, rating_votes_power_score p it))

/-- C9: with `m`, `C`, `p` fixed, every derived score is a function of the
item's own `average_rating` and `ratings_count` only, and the score an item
receives in a pass does not depend on the other items in the collection. -/
theorem C9_scores_depend_only_on_own_fields (m C p : ℚ) (it₁ it₂ : Item)
    (hr : it₁.average_rating = it₂.average_rating)
    (hn : it₁.ratings_count = it₂.ratings_count) :
    weighted_score m C it₁ = weighted_score m C it₂ ∧
    weighted_score_main m C it₁ = weighted_score_main m C it₂ ∧
    rating_votes_power_score p it₁ = rating_votes_power_score p it₂ ∧
    ∀ rest rest' : List Item,
      (score_pass m C p (it₁ :: rest)).head?
        = (score_pass m C p (it₁ :: rest')).head? := by
  refine ⟨?_, ?_, ?_, ?_⟩
  · simp [weighted_score, hr, hn]
  · simp [weighted_score_main, hr, hn]
  · simp [rating_votes_power_score, hr, hn]
  · intro rest rest'
    simp [score_pass]

/-- Witness for C9: two items sharing rating `4` and count `10` but differing
in price, duration, title and genres get identical scores. -/
theorem C9_witness :
    weighted_score 30 4 ⟨some 4, 10, none, 0, 0, "x", []⟩
      = weighted_score 30 4 ⟨some 4, 10, some 99, 50, 120, "y", ["Fiction"]⟩ :=
  (C9_scores_depend_only_on_own_fields 30 4 1
    ⟨some 4, 10, none, 0, 0, "x", []⟩
    ⟨some 4, 10, some 99, 50, 120, "y", ["Fiction"]⟩ rfl rfl).1

/-- Source `bookApp.py` lines 1131–1138 (second Flask variant): Bayesian rating with
a prior of `c_val` virtual ratings at the global mean; an unrated row falls
back to the global mean, a rated row with zero votes keeps its own rating,
otherwise `((c_val*mean) + (avg*num)) / (c_val + num)`. -/
def calculate_bayesian_rating (mean_rating c_val : ℚ) (it : Item) : ℚ :=
  match it.average_rating with
  | none => mean_rating
  | some avg_r =>
    if it.ratings_count = 0 then avg_r
    else (c_val * mean_rating + avg_r * (it.ratings_count : ℚ))
         / (c_val + (it.ratings_count : ℚ))

/-- C10: with prior `c_val = 200` and the same global mean `C`, the Bayesian
rating agrees with the weighted score at `m = 200` on every rated item with
positive votes; on a rated item with zero votes it keeps the raw rating where
the weighted score gives `C`; on an unrated item it gives `C` where the
weighted score stays null. -/
theorem C10_bayesian_vs_weighted (C r : ℚ) (it : Item) :
    (it.average_rating = some r → 0 < it.ratings_count →
      weighted_score 200 C it = some (calculate_bayesian_rating C 200 it)) ∧
    (it.average_rating = some r → it.ratings_count = 0 →
      calculate_bayesian_rating C 200 it = r
        ∧ weighted_score 200 C it = some C) ∧
    (it.average_rating = none →
      calculate_bayesian_rating C 200 it = C
        ∧ weighted_score 200 C it = none) := by
  refine ⟨?_, ?_, ?_⟩
  · intro hr hn
    have hn0 : it.ratings_count ≠ 0 := Nat.pos_iff_ne_zero.mp hn
    have hd : (0 : ℚ) < (it.ratings_count : ℚ) + 200 := by positivity
    simp only [weighted_score, calculate_bayesian_rating, hr, hn0, if_false]
    rw [if_neg (by norm_num : (200 : ℚ) ≠ 0)]
    congr 1
    field_simp
    ring
  · intro hr hn
    constructor
    · simp [calculate_bayesian_rating, hr, hn]
    · simp only [weighted_score, hr, hn]
      norm_num
  · intro hr
    constructor
    · simp [calculate_bayesian_rating, hr]
    · simp [weighted_score, hr]

/-- Witness for C10 at `C = 3`, item with rating `4` and `100` votes. -/
theorem C10_witness :
    weighted_score 200 3
      ⟨some 4, 100, none, 0, 0, "b", []⟩
      = some (calculate_bayesian_rating 3 200 ⟨some 4, 100, none, 0, 0, "b", []⟩) :=
  (C10_bayesian_vs_weighted 3 4 ⟨some 4, 100, none, 0, 0, "b", []⟩).1
    rfl (by norm_num)

/-!
### Parsers: fail-soft loading of the rating / time / genre fields

The loaders turn raw text fields into the typed `Item` columns; C8 says they
are total and degrade to null/0/empty on malformed input instead of raising.
Python operations that can raise (`list[i]`, `int(str)`, `ast.literal_eval`)
are modelled in `Except`, and the source's `try/except` handlers as matches on
the `Except` value.
-/

/-- The whitespace characters relevant to Python `strip` / `split`. -/
def isSpaceChar (c : Char) : Bool :=
  c = ' ' || c = '\t' || c = '\n' || c = '\r'

/-- Test that `pat` occurs at the head of `text`. -/
def leadMatch : List Char → List Char → Bool
  | [], _ => true
  | _ :: _, [] => false
  | p :: ps, t :: ts => p = t && leadMatch ps ts

/-- Python substring containment `pat in text`. -/
def subMatch (pat : List Char) : List Char → Bool
  | [] => leadMatch pat []
  | t :: ts => leadMatch pat (t :: ts) || subMatch pat ts

/-- Helper bound for the termination arguments below. -/
theorem dropWhile_length_le (p : Char → Bool) (l : List Char) :
    (l.dropWhile p).length ≤ l.length :=
  (List.dropWhile_sublist p).length_le

/-- Python `str.replace(old, new)` for the non-empty literals used by
`parse_time` (`' and '` and `'mins'`): nonoverlapping left-to-right
replacement. -/
def replaceSub (pat rep : List Char) : List Char → List Char
  | [] => []
  | t :: ts =>
    if pat ≠ [] ∧ leadMatch pat (t :: ts) = true then
      rep ++ replaceSub pat rep (List.drop (pat.length - 1) ts)
    else t :: replaceSub pat rep ts
termination_by l => l.length
decreasing_by
  · simp only [List.length_cons, List.length_drop]
    omega
  · simp only [List.length_cons]
    omega

/-- Dropping a satisfied head strictly shortens the list. -/
theorem dropWhile_cons_length_lt (p : Char → Bool) (c : Char) (cs : List Char)
    (h : p c = true) : (List.dropWhile p (c :: cs)).length < (c :: cs).length := by
  rw [List.dropWhile_cons_of_pos h]
  have := dropWhile_length_le p cs
  simp only [List.length_cons]
  omega

/-- Python `str.split()`: split on whitespace runs, no empty pieces. -/
def splitWs : List Char → List String
  | [] => []
  | c :: cs =>
    if h : isSpaceChar c = true then splitWs cs
    else
      String.mk ((c :: cs).takeWhile (fun ch => !isSpaceChar ch))
        :: splitWs ((c :: cs).dropWhile (fun ch => !isSpaceChar ch))
termination_by l => l.length
decreasing_by
  · simp only [List.length_cons]
    omega
  · exact dropWhile_cons_length_lt _ _ _ (by simp_all)

/-- Python `str.isdigit` (over the ASCII content of this dataset). -/
def strIsDigit (s : String) : Bool :=
  !s.data.isEmpty && s.data.all Char.isDigit

/-- Numeric value of a digit run. -/
def digitsVal (l : List Char) : ℕ :=
  l.foldl (fun a c => a * 10 + (c.toNat - 48)) 0

/-- Python `int(s)` on the strings fed to it here: ok on a digit run, raising
`ValueError` (modelled with `Except.error`) otherwise. -/
def intOfString (s : String) : Except String ℕ :=
  if strIsDigit s then Except.ok (digitsVal s.data)
  else Except.error "invalid literal for int"

/-- Python `list[i]`, which raises `IndexError` out of bounds. -/
def getAt (l : List String) (i : ℕ) : Except String String :=
  if h : i < l.length then Except.ok (l.get ⟨i, h⟩)
  else Except.error "list index out of range"

/-- Python `.lower().strip()`. -/
def lowerStrip (s : String) : String :=
  String.mk
    ((((s.data.map Char.toLower).dropWhile isSpaceChar).reverse.dropWhile
        isSpaceChar).reverse)

/-- The `while i < len(parts)` loop of `parse_time` (`main.py` lines 50–70):
a digit token adds its value (×60 when the following token contains `hr` or
`hour`; ×1 when it contains `min`; ×1 and single-step otherwise or at the end
of the list); non-digit tokens are skipped. -/
def parse_time_go (parts : List String) (i acc : ℕ) : Except String ℕ :=
  if hi : i < parts.length then
    match getAt parts i with
    | Except.error e => Except.error e
    | Except.ok tok =>
      if strIsDigit tok then
        match intOfString tok with
        | Except.error e => Except.error e
        | Except.ok value =>
          if i + 1 < parts.length then
            match getAt parts (i + 1) with
            | Except.error e => Except.error e
            | Except.ok nxt =>
              if subMatch ("hr".data) (lowerStrip nxt).data then
                parse_time_go parts (i + 2) (acc + value * 60)
              else if subMatch ("hour".data) (lowerStrip nxt).data then
                parse_time_go parts (i + 2) (acc + value * 60)
              else if subMatch ("min".data) (lowerStrip nxt).data then
                parse_time_go parts (i + 2) (acc + value)
              else parse_time_go parts (i + 1) (acc + value)
          else parse_time_go parts (i + 1) (acc + value)
      else parse_time_go parts (i + 1) acc
  else Except.ok acc
termination_by parts.length - i
decreasing_by all_goals omega

/-- Source `main.py` lines 45–76: `parse_time` — NaN gives 0; otherwise the string is
preprocessed (`' and '` → `' '`, `'mins'` removed, whitespace split), scanned
by the loop, and the `except` handler returns 0. -/
def parse_time (time_str : Option String) : ℕ :=
  match time_str with
  | none => 0
  | some s =>
    match parse_time_go
        (splitWs (replaceSub ("mins".data) []
          (replaceSub (" and ".data) (" ".data) s.data))) 0 0 with
    | Except.ok n => n
    | Except.error _ => 0

theorem getAt_ok (l : List String) (i : ℕ) (h : i < l.length) :
    getAt l i = Except.ok (l.get ⟨i, h⟩) := by
  simp [getAt, h]

theorem intOfString_ok (s : String) (h : strIsDigit s = true) :
    intOfString s = Except.ok (digitsVal s.data) := by
  simp [intOfString, h]

/-- The guards inside the `parse_time` loop prevent every raise: the loop
always returns a value. -/
theorem parse_time_go_ok :
    ∀ (k : ℕ) (parts : List String) (i acc : ℕ), parts.length - i ≤ k →
      ∃ n, parse_time_go parts i acc = Except.ok n := by
  intro k
  induction k with
  | zero =>
    intro parts i acc hk
    have hi : ¬ i < parts.length := by omega
    rw [parse_time_go, dif_neg hi]
    exact ⟨acc, rfl⟩
  | succ k ih =>
    intro parts i acc hk
    by_cases hi : i < parts.length
    · rw [parse_time_go, dif_pos hi]
      simp only [getAt_ok parts i hi]
      by_cases hd : strIsDigit (parts.get ⟨i, hi⟩) = true
      · rw [if_pos hd]
        simp only [intOfString_ok _ hd]
        by_cases h2 : i + 1 < parts.length
        · rw [if_pos h2]
          simp only [getAt_ok parts (i + 1) h2]
          by_cases hhr : subMatch ("hr".data)
              (lowerStrip (parts.get ⟨i + 1, h2⟩)).data = true
          · rw [if_pos hhr]
            exact ih parts (i + 2) _ (by omega)
          · rw [if_neg hhr]
            by_cases hhour : subMatch ("hour".data)
                (lowerStrip (parts.get ⟨i + 1, h2⟩)).data = true
            · rw [if_pos hhour]
              exact ih parts (i + 2) _ (by omega)
            · rw [if_neg hhour]
              by_cases hmin : subMatch ("min".data)
                  (lowerStrip (parts.get ⟨i + 1, h2⟩)).data = true
              · rw [if_pos hmin]
                exact ih parts (i + 2) _ (by omega)
              · rw [if_neg hmin]
                exact ih parts (i + 1) _ (by omega)
        · rw [if_neg h2]
          exact ih parts (i + 1) _ (by omega)
      · rw [if_neg hd]
        exact ih parts (i + 1) _ (by omega)
    · rw [parse_time_go, dif_neg hi]
      exact ⟨acc, rfl⟩

/-- Match `(\d+(\.\d+)?)\s+out of 5 stars` at the start of `cs` (greedy digit
runs, optional fraction, at least one whitespace, then the literal tail),
returning the integer and fraction digit groups of group 1. -/
def matchRatingAt (cs : List Char) : Option (List Char × List Char) :=
  let ip := cs.takeWhile Char.isDigit
  if ip.isEmpty then none
  else
    let rest := cs.dropWhile Char.isDigit
    let fr : List Char × List Char :=
      match rest with
      | '.' :: r2 =>
        let f := r2.takeWhile Char.isDigit
        if f.isEmpty then ([], rest) else (f, r2.dropWhile Char.isDigit)
      | _ => ([], rest)
    if (fr.2.takeWhile isSpaceChar).isEmpty then none
    else if leadMatch ("out of 5 stars".data) (fr.2.dropWhile isSpaceChar) then
      some (ip, fr.1)
    else none

/-- Match `(\d+)\s+ratings` at the start of `cs`, returning the digit group. -/
def matchVotesAt (cs : List Char) : Option (List Char) :=
  let ip := cs.takeWhile Char.isDigit
  if ip.isEmpty then none
  else
    let rest := cs.dropWhile Char.isDigit
    if (rest.takeWhile isSpaceChar).isEmpty then none
    else if leadMatch ("ratings".data) (rest.dropWhile isSpaceChar) then some ip
    else none

/-- Model of `re.search`: try the pattern matcher at each position, leftmost match
wins, `None` when no position matches. -/
def searchAt {α : Type} (f : List Char → Option α) : List Char → Option α
  | [] => f []
  | c :: cs =>
    match f (c :: cs) with
    | some g => some g
    | none => searchAt f cs

/-- Python `float` on a matched `\d+(\.\d+)?` group. -/
def pyFloat (ip fp : List Char) : ℚ :=
  (digitsVal ip : ℚ) + (digitsVal fp : ℚ) / (10 ^ fp.length)

/-- Source `main.py` lines 25–33: `parse_stars` — NaN or `'Not rated yet'` give
`(None, 0)`; otherwise the rating is the first match of
`(\d+(\.\d+)?)\s+out of 5 stars` (else `None`) and the vote count the first
match of `(\d+)\s+ratings` (else `0`). -/
def parse_stars (stars_str : Option String) : Option ℚ × ℕ :=
  match stars_str with
  | none => (none, 0)
  | some s =>
    if s = "Not rated yet" then (none, 0)
    else
      ((searchAt matchRatingAt s.data).map (fun g => pyFloat g.1 g.2),
       ((searchAt matchVotesAt s.data).map digitsVal).getD 0)

/-- The raw `genres` cell handed to `parse_genres`: a string, an
already-parsed list, or missing data. -/
inductive GenreField where
  | gstr : String → GenreField
  | glist : List String → GenreField
  | gna : GenreField

/-- Python quote characters opening a string literal. -/
def isQuoteChar (c : Char) : Bool :=
  c.toNat = 39 || c = '"'

/-- Parser modes for the list-of-string-literals grammar. -/
inductive LMode where
  | expectItem : LMode
  | inStr : Char → List Char → LMode
  | afterItem : LMode
  | closed : LMode

/-- Character-by-character parse of the body of a `[...]` literal whose
elements are string literals (the format of the genres column): modes track
whether the parser expects an element, is inside a quoted string, sits after
an element, or has seen the closing bracket. -/
def listLitLoop : LMode → List String → List Char → Except String (List String)
  | LMode.closed, acc, [] => Except.ok acc.reverse
  | LMode.closed, acc, c :: cs =>
    if isSpaceChar c then listLitLoop LMode.closed acc cs
    else Except.error "malformed node or string"
  | LMode.expectItem, _, [] => Except.error "malformed node or string"
  | LMode.expectItem, acc, c :: cs =>
    if isSpaceChar c then listLitLoop LMode.expectItem acc cs
    else if c = ']' then listLitLoop LMode.closed acc cs
    else if isQuoteChar c then listLitLoop (LMode.inStr c []) acc cs
    else Except.error "malformed node or string"
  | LMode.inStr _ _, _, [] => Except.error "malformed node or string"
  | LMode.inStr q cur, acc, c :: cs =>
    if c = q then listLitLoop LMode.afterItem (String.mk cur.reverse :: acc) cs
    else listLitLoop (LMode.inStr q (c :: cur)) acc cs
  | LMode.afterItem, _, [] => Except.error "malformed node or string"
  | LMode.afterItem, acc, c :: cs =>
    if isSpaceChar c then listLitLoop LMode.afterItem acc cs
    else if c = ',' then listLitLoop LMode.expectItem acc cs
    else if c = ']' then listLitLoop LMode.closed acc cs
    else Except.error "malformed node or string"

/-- Model of `ast.literal_eval` on the genres column: parses a
`['...', '...']` list-of-string-literals, raising (`Except.error`, for
`ValueError`/`SyntaxError`) on malformed input. -/
def literal_eval_list (s : String) : Except String (List String) :=
  match s.data.dropWhile isSpaceChar with
  | '[' :: rest => listLitLoop LMode.expectItem [] rest
  | _ => Except.error "malformed node or string"

/-- Python `startswith` for a single-character head. -/
def headIs (c : Char) (s : String) : Bool :=
  match s.data with
  | x :: _ => x = c
  | [] => false

/-- Python `endswith` for a single-character tail. -/
def lastIs (c : Char) (s : String) : Bool :=
  match s.data.getLast? with
  | some x => x = c
  | none => false

/-- Source `bookApp.py` lines 81–89: `parse_genres` — a `[...]`-bracketed string goes
through `ast.literal_eval`, with malformed input degrading to `[]` via the
`except (ValueError, SyntaxError)` handler; a list value passes through;
anything else gives `[]`. -/
def parse_genres : GenreField → List String
  | GenreField.gstr s =>
    if headIs '[' s && lastIs ']' s then
      match literal_eval_list s with
      | Except.ok l => l
      | Except.error _ => []
    else []
  | GenreField.glist l => l
  | GenreField.gna => []

/-- C8: no scoring/filtering/ranking operation raises — the `parse_time` loop
never errors (its guards rule out every raise, so the `except` fallback is
dead and the parser is total), `parse_stars` falls back to `None`/`0` when
its patterns do not match, `parse_genres` degrades to `[]` whenever
`literal_eval` raises, and a scoring pass returns a result for every row of
every collection. -/
theorem C8_parsers_total_and_fail_soft :
    (∀ (parts : List String) (i acc : ℕ),
      ∃ n, parse_time_go parts i acc = Except.ok n) ∧
    (∀ s : String, ∃ n, parse_time (some s) = n ∧
      parse_time_go
        (splitWs (replaceSub ("mins".data) []
          (replaceSub (" and ".data) (" ".data) s.data))) 0 0 = Except.ok n) ∧
    (∀ s : String, searchAt matchRatingAt s.data = none →
      (parse_stars (some s)).1 = none) ∧
    (∀ s : String, searchAt matchVotesAt s.data = none →
      (parse_stars (some s)).2 = 0) ∧
    (∀ (s e : String), literal_eval_list s = Except.error e →
      parse_genres (GenreField.gstr s) = []) ∧
    (∀ (m C p : ℚ) (items : List Item),
      (score_pass m C p items).length = items.length) := by
  have hloop : ∀ (parts : List String) (i acc : ℕ),
      ∃ n, parse_time_go parts i acc = Except.ok n :=
    fun parts i acc => parse_time_go_ok (parts.length - i) parts i acc le_rfl
  refine ⟨hloop, ?_, ?_, ?_, ?_, ?_⟩
  · intro s
    obtain ⟨n, hn⟩ := hloop
      (splitWs (replaceSub ("mins".data) []
        (replaceSub (" and ".data) (" ".data) s.data))) 0 0
    exact ⟨n, by simp [parse_time, hn], hn⟩
  · intro s hs
    by_cases hnr : s = "Not rated yet"
    · simp [parse_stars, hnr]
    · simp [parse_stars, hnr, hs]
  · intro s hs
    by_cases hnr : s = "Not rated yet"
    · simp [parse_stars, hnr]
    · simp [parse_stars, hnr, hs]
  · intro s e hs
    by_cases hb : (headIs '[' s && lastIs ']' s) = true
    · simp [parse_genres, hb, hs]
    · simp [parse_genres, hb]
  · intro m C p items
    simp [score_pass]

/-- Witness for C8 on concrete malformed and well-formed inputs. -/
theorem C8_witness :
    (∃ n, parse_time_go ["7", "hrs", "30"] 0 0 = Except.ok n) ∧
    (parse_stars (some "no stars here")).1 = none ∧
    (parse_stars (some "no stars here")).2 = 0 ∧
    parse_genres (GenreField.gstr "[broken") = [] :=
  ⟨C8_parsers_total_and_fail_soft.1 ["7", "hrs", "30"] 0 0,
   C8_parsers_total_and_fail_soft.2.2.1 "no stars here" (by decide),
   C8_parsers_total_and_fail_soft.2.2.2.1 "no stars here" (by decide),
   C8_parsers_total_and_fail_soft.2.2.2.2.1 "[broken" "malformed node or string"
     rfl⟩
